import Mathlib

set_option maxRecDepth 8000

/-
Verification of the crystallize-cli installer core (Go sources under
internal/modules/partition, internal/config and internal/utils).

Modelling conventions:
  * Strings are modelled as Lean `String` (a list of characters); the
    device names and configuration values handled by the installer are
    ASCII, where Go's byte-oriented string functions agree with the
    character-oriented model.
  * Pure Go functions (ParseFilesystem, DeviceParser.Parse, ...) become
    pure Lean functions with the same names.
  * Go standard-library helpers used by those functions
    (strings.Contains, strings.TrimSpace, strconv.Atoi, regexp matching
    for the two concrete patterns appearing in partition.go) are embedded
    by their documented semantics as executable Lean functions.
  * Effectful code is modelled with an `Env` oracle fixing the behaviour
    of the outside world (existence of paths, exit status of external
    commands, success of directory creation) and a `Step` result carrying
    the trace of externally visible actions (commands spawned,
    directories created) plus an outcome: `ok` with the Go return value,
    or `crashed` when the code calls utils.Crash / utils.ExecEval on a
    failed command (which terminates the whole process).  The environment
    is a static oracle: world mutation is not tracked, and log output and
    sleeps are not part of the trace.
-/

namespace Crystallize

/-! ### Character and string helpers (Go standard library semantics) -/

/-- Apostrophe character, used in the "don't format" literals of partition.go. -/
def apoChar : Char := Char.ofNat 39

/-- Characters trimmed by Go's strings.TrimSpace (unicode.IsSpace): space,
\t, \n, vertical tab, form feed, \r, NEL (U+0085) and NBSP (U+00A0). -/
def goIsSpace (c : Char) : Bool :=
  c == ' ' || c == '\t' || c == '\n' || c == Char.ofNat 11 || c == Char.ofNat 12 ||
    c == '\r' || c == Char.ofNat 0x85 || c == Char.ofNat 0xA0

/-- Characters matched by the RE2 class \s ([\t\n\f\r ]). -/
def reSpace (c : Char) : Bool :=
  c == '\t' || c == '\n' || c == Char.ofNat 12 || c == '\r' || c == ' '

/-- String built from a character list. -/
def ofChars (l : List Char) : String := String.mk l

/-- Go strings.ToLower (agrees with per-character lowering on ASCII). -/
def goToLower (s : String) : String := ofChars (s.data.map Char.toLower)

/-- Go strings.TrimSpace: remove leading and trailing white space. -/
def goTrimSpace (s : String) : String :=
  ofChars (((s.data.dropWhile goIsSpace).reverse.dropWhile goIsSpace).reverse)

/-- Occurrence test for a pattern inside a character list: the pattern is a
prefix of some suffix.  This is Go's strings.Contains on ASCII data. -/
def listHasSub (pat : List Char) : List Char → Bool
  | [] => pat.isEmpty
  | c :: t => pat.isPrefixOf (c :: t) || listHasSub pat t

/-- Go strings.Contains. -/
def goContains (s sub : String) : Bool := listHasSub sub.data s.data

/-- Numeric value of a list of decimal digit characters. -/
def digitsToNat (l : List Char) : Nat :=
  l.foldl (fun a c => a * 10 + (c.toNat - 48)) 0

/-- Go strconv.Atoi: an optional sign followed by a non-empty run of decimal
digits (the int64 range check is irrelevant for the partition numbers
handled here and is not modelled). -/
def goAtoi (s : String) : Option Int :=
  match s.data with
  | [] => none
  | '+' :: rest =>
      if rest ≠ [] && rest.all Char.isDigit then some (digitsToNat rest) else none
  | '-' :: rest =>
      if rest ≠ [] && rest.all Char.isDigit then some (-(digitsToNat rest : Int)) else none
  | l => if l.all Char.isDigit then some (digitsToNat l) else none

/-! ### PartitionMode (partition.go, ParsePartitionMode)

Go declares `type PartitionMode string`; the mode stays a string in the
model, with the two constants "auto" and "manual". -/

/-- ParsePartitionMode from partition.go: lower-case and trim the input;
"auto" and "manual" map to themselves with a nil error, anything else
returns the auto mode together with a non-nil error. -/
def ParsePartitionMode (mode : String) : String × Option String :=
  let normalized := goToLower (goTrimSpace mode)
  if normalized = "auto" then ("auto", none)
  else if normalized = "manual" then ("manual", none)
  else ("auto", some ("unknown partition mode: " ++ mode ++ ", defaulting to auto"))

/-! ### FilesystemType and ParseFilesystem (partition.go) -/

/-- FilesystemType enumeration from partition.go. -/
inductive FilesystemType where
  | Ext4
  | Fat32
  | Btrfs
  | Xfs
  | NoFormat
deriving DecidableEq, Repr

/-- Key for the "don't format" entry of filesystemMap. -/
def dontFormatKey : String :=
  ofChars ['d', 'o', 'n', apoChar, 't', ' ', 'f', 'o', 'r', 'm', 'a', 't']

/-- Lookup in the filesystemMap literal of partition.go. -/
def filesystemMapLookup (s : String) : Option FilesystemType :=
  if s = "ext4" then some .Ext4
  else if s = "fat32" then some .Fat32
  else if s = "btrfs" then some .Btrfs
  else if s = "xfs" then some .Xfs
  else if s = "noformat" || s = "no-format" || s = "no format" || s = dontFormatKey then
    some .NoFormat
  else none

/-- Drop an expected literal from the front of a list, or fail. -/
def dropLit : List Char → List Char → Option (List Char)
  | [], l => some l
  | _ :: _, [] => none
  | p :: ps, c :: cs => if p = c then dropLit ps cs else none

/-- Separator class [\s\-_] of the noFormatRegex. -/
def noFormatSep (c : Char) : Bool := reSpace c || c == '-' || c == '_'

/-- Tail of the noFormatRegex after the first alternative:
[\s\-_]*(format|fmt)?$.  Because neither "format" nor "fmt" starts with a
separator character, the separator star must consume the maximal run. -/
def noFormatTail (l : List Char) : Bool :=
  let r := l.dropWhile noFormatSep
  r = [] || r = "format".data || r = "fmt".data

/-- Middle alternative do\s*not of the noFormatRegex ("not" does not start
with a white-space character, so the star consumes the maximal run). -/
def dropDoNot (l : List Char) : Option (List Char) :=
  match dropLit "do".data l with
  | none => none
  | some r => dropLit "not".data (r.dropWhile reSpace)

/-- Matcher for the anchored pattern
(?i)^(don'?t|do\s*not|no|skip|none)[\s\-_]*(format|fmt)?$
compiled as noFormatRegex in partition.go.  Case-insensitivity is the
per-character lowering of the input (the literals are ASCII). -/
def matchNoFormatRegex (s : List Char) : Bool :=
  let l := s.map Char.toLower
  let alts : List (Option (List Char)) :=
    [dropLit "dont".data l,
     dropLit ("don".data ++ [apoChar] ++ "t".data) l,
     dropDoNot l,
     dropLit "no".data l,
     dropLit "skip".data l,
     dropLit "none".data l]
  alts.any fun r =>
    match r with
    | some rest => noFormatTail rest
    | none => false

/-- ContainsAllKeywords helper of partition.go. -/
def containsAllKeywords (input : String) (keywords : List String) : Bool :=
  keywords.all fun k => goContains input k

/-- ContainsNoFormatKeywords helper of partition.go, with its four keyword
sets. -/
def containsNoFormatKeywords (input : String) : Bool :=
  containsAllKeywords input ["don", "format"] ||
  containsAllKeywords input ["do", "not", "format"] ||
  containsAllKeywords input ["skip", "format"] ||
  containsAllKeywords input ["no", "format"]

/-- Helper isNoFormatVariation of partition.go: the regex or the keyword
test may independently classify the input. -/
def isNoFormatVariation (input : String) : Bool :=
  matchNoFormatRegex input.data || containsNoFormatKeywords input

/-- ParseFilesystem from partition.go: empty input and unknown input
default to Ext4; otherwise the trimmed lower-cased input is looked up in
filesystemMap and then run through isNoFormatVariation. -/
def ParseFilesystem (fs : String) : FilesystemType :=
  if fs = "" then .Ext4
  else
    let normalized := goTrimSpace (goToLower fs)
    match filesystemMapLookup normalized with
    | some t => t
    | none => if isNoFormatVariation normalized then .NoFormat else .Ext4

/-- NeedsFormatting method of FilesystemType. -/
def FilesystemType.NeedsFormatting (fs : FilesystemType) : Bool := fs != .NoFormat

/-- Lookup in the filesystemCommands map (no entry for NoFormat: Go's map
returns the zero value, the empty string). -/
def FilesystemType.Command : FilesystemType → String
  | .Ext4 => "mkfs.ext4"
  | .Fat32 => "mkfs.fat"
  | .Btrfs => "mkfs.btrfs"
  | .Xfs => "mkfs.xfs"
  | .NoFormat => ""

/-- Lookup in the filesystemArgs map of partition.go. -/
def FilesystemType.Args : FilesystemType → List String
  | .Ext4 => ["-F"]
  | .Fat32 => ["-F32"]
  | .Btrfs => ["-f"]
  | .Xfs => ["-f"]
  | .NoFormat => []

/-- Lookup in the filesystemNames map of partition.go. -/
def FilesystemType.Name : FilesystemType → String
  | .Ext4 => "ext4"
  | .Fat32 => "fat32"
  | .Btrfs => "btrfs"
  | .Xfs => "xfs"
  | .NoFormat => "noformat"

/-- Recognition predicate implicit in ParseFilesystem: the normalized input
is either a key of filesystemMap or a no-format variation.  Inputs outside
this set fall back to Ext4. -/
def RecognizedFs (s : String) : Bool :=
  let normalized := goTrimSpace (goToLower s)
  (filesystemMapLookup normalized).isSome || isNoFormatVariation normalized

/-! ### DeviceParser (partition.go) -/

/-- Substring heuristic isSpecialDevice of partition.go. -/
def isSpecialDevice (device : String) : Bool :=
  goContains device "nvme" || goContains device "mmcblk"

/-- Index of the last occurrence of a character (Go strings.LastIndex with
a one-character needle). -/
def lastIndexOfChar (c : Char) : List Char → Option Nat
  | [] => none
  | x :: xs =>
      match lastIndexOfChar c xs with
      | some i => some (i + 1)
      | none => if x = c then some 0 else none

/-- ParseSpecialDevice: split at the last literal "p"; when there is none,
fall back to the whole string with partition number "1". -/
def parseSpecialDevice (bd : String) : String × String :=
  match lastIndexOfChar 'p' bd.data with
  | some idx => (ofChars (bd.data.take idx), ofChars (bd.data.drop (idx + 1)))
  | none => (bd, "1")

/-- Length of the trailing run of decimal digits. -/
def trailingDigitRun (l : List Char) : Nat :=
  (l.reverse.takeWhile Char.isDigit).length

/-- ParseStandardDevice: the Go code matches partitionRegex, the anchored
pattern (.+?)(\d+) with a lazy first group.  In RE2 the dot does not match
a newline (the pattern carries no (?s) flag), digits are never newlines,
and the pattern is anchored, so a string containing a newline cannot match
at all.  On a newline-free string with at least two characters and a
non-empty trailing digit run, the lazy group takes the shortest non-empty
prefix whose remainder consists only of digits, i.e. the split sits at
max (length - run) 1; otherwise there is no match and the code falls back
to partition number "1". -/
def parseStandardDevice (bd : String) : String × String :=
  let l := bd.data
  let t := trailingDigitRun l
  if t = 0 || l.length < 2 || decide (Char.ofNat 10 ∈ l) then (bd, "1")
  else
    let b := max (l.length - t) 1
    (ofChars (l.take b), ofChars (l.drop b))

/-- DeviceParser.Parse from partition.go. -/
def Parse (blockdevice : String) : String × String :=
  if isSpecialDevice blockdevice then parseSpecialDevice blockdevice
  else parseStandardDevice blockdevice

/-- GetPartitionSeparator: "p" for NVMe/MMC style devices, "" otherwise. -/
def getPartitionSeparator (device : String) : String :=
  if isSpecialDevice device then "p" else ""

/-- Name of one partition, device + separator + decimal number (the
fmt.Sprintf("%s%s%d", ...) of GetPartitionNames). -/
def partName (device : String) (n : Nat) : String :=
  device ++ getPartitionSeparator device ++ Nat.repr n

/-- DeviceParser.GetPartitionNames from partition.go. -/
def GetPartitionNames (device : String) (nums : List Nat) : List String :=
  nums.map (partName device)

/-- IsValidPartitionNumber from partition.go (strconv.Atoi succeeds). -/
def isValidPartitionNumber (partitionNum : String) : Bool :=
  (goAtoi partitionNum).isSome

end Crystallize

namespace Crystallize

/-! ### Effect model: environment oracle, events and step results -/

/-- Oracle for the outside world: existence of paths (utils.Exists),
exit status of spawned commands (utils.Exec and friends) and success of
directory creation (os.MkdirAll inside utils.CreateDirectory). -/
structure Env where
  pathExists : String → Bool
  execOk : String → List String → Bool
  mkdirOk : String → Bool

/-- Externally visible actions of the installer. -/
inductive Event where
  | exec : String → List String → Event
  | mkdir : String → Event
deriving DecidableEq, Repr

/-- Outcome of a computation: a normal return, or process termination via
utils.Crash (the string is the failure description passed to ExecEval /
FilesEval / Crash). -/
inductive Outcome (α : Type) where
  | ok : α → Outcome α
  | crashed : String → Outcome α
deriving DecidableEq, Repr

/-- Result of an effectful computation: the trace of events it performed
and its outcome. -/
structure Step (α : Type) where
  trace : List Event
  out : Outcome α
deriving DecidableEq, Repr

/-- Sequencing of step results; a crash stops the computation. -/
def Step.andThen : Step α → (α → Step β) → Step β
  | ⟨tr, .crashed m⟩, _ => ⟨tr, .crashed m⟩
  | ⟨tr, .ok a⟩, f => ⟨tr ++ (f a).trace, (f a).out⟩

/-- Pure step. -/
def Step.pure (a : α) : Step α := ⟨[], .ok a⟩

/-- Go error values: none is Go's nil error. -/
abbrev GoErr := Option String

/-- Sequencing for Go-style error returns that forwards a non-nil error to
the caller (the `if err != nil { return err }` idiom): the continuation
runs only on a nil error. -/
def Step.andThenE (s : Step GoErr) (k : Unit → Step GoErr) : Step GoErr :=
  s.andThen fun e =>
    match e with
    | some msg => ⟨[], .ok (some msg)⟩
    | none => k ()

/-- Sequencing that wraps a propagated error with a context prefix (the
fmt.Errorf("context: %w", err) idiom). -/
def Step.andThenW (s : Step GoErr) (pre : String) (k : Unit → Step GoErr) : Step GoErr :=
  s.andThen fun e =>
    match e with
    | some msg => ⟨[], .ok (some (pre ++ msg))⟩
    | none => k ()

/-- Model of utils.Exec: spawn the command, report success as a Bool
(true is Go's nil error). -/
def utilExec (env : Env) (cmd : String) (args : List String) : Step Bool :=
  ⟨[.exec cmd args], .ok (env.execOk cmd args)⟩

/-- Model of utils.ExecEval(utils.Exec(cmd, args...), desc): on failure the
process is terminated via utils.Crash, on success it only logs. -/
def execEval (env : Env) (cmd : String) (args : List String) (desc : String) : Step Unit :=
  if env.execOk cmd args then ⟨[.exec cmd args], .ok ()⟩
  else ⟨[.exec cmd args], .crashed desc⟩

/-- Model of utils.CreateDirectory (os.MkdirAll): emits a mkdir event and
reports success. -/
def createDirectory (env : Env) (path : String) : Step Bool :=
  ⟨[.mkdir path], .ok (env.mkdirOk path)⟩

/-- Model of utils.FilesEval(utils.CreateDirectory(path), desc): crash on
failure. -/
def filesEvalMkdir (env : Env) (path desc : String) : Step Unit :=
  if env.mkdirOk path then ⟨[.mkdir path], .ok ()⟩
  else ⟨[.mkdir path], .crashed desc⟩

/-! ### MountManager (partition.go) -/

/-- Fixed cleanupMounts list of partition.go. -/
def cleanupMounts : List String := ["/mnt/boot", "/mnt/dev", "/mnt/proc", "/mnt/sys", "/mnt"]

/-- MountManager.CleanupAll: best-effort recursive unmount of the known
mount points, errors ignored. -/
def cleanupAll : Step Unit :=
  ⟨cleanupMounts.map (fun mp => .exec "umount" ["-R", mp]), .ok ()⟩

/-- MountManager.IsMounted: shell out to mountpoint -q. -/
def isMounted (env : Env) (mountpoint : String) : Step Bool :=
  utilExec env "mountpoint" ["-q", mountpoint]

/-- MountManager.EnsureExists: create the mount point if absent; a failed
creation terminates the process via utils.Crash. -/
def ensureExists (env : Env) (mountpoint : String) : Step Unit :=
  if env.pathExists mountpoint then ⟨[], .ok ()⟩
  else if env.mkdirOk mountpoint then ⟨[.mkdir mountpoint], .ok ()⟩
  else ⟨[.mkdir mountpoint], .crashed ("Failed to create mount point " ++ mountpoint)⟩

/-- MountManager.UnmountIfMounted: unmount when already mounted, errors
ignored. -/
def unmountIfMounted (env : Env) (mountpoint : String) : Step Unit :=
  (isMounted env mountpoint).andThen fun mounted =>
    if mounted then ⟨[.exec "umount" [mountpoint]], .ok ()⟩ else ⟨[], .ok ()⟩

/-! ### Mount and Umount (partition.go) -/

/-- BuildMountArgs helper of partition.go. -/
def buildMountArgs (partitionDev mountpoint options : String) : List String :=
  if options ≠ "" then [partitionDev, mountpoint, "-o", options]
  else [partitionDev, mountpoint]

/-- Mount from partition.go: reject empty arguments, ensure the mount
point exists, unmount leftovers, then run mount through ExecEval (a mount
failure terminates the process). -/
def Mount (env : Env) (partitionDev mountpoint options : String) : Step GoErr :=
  if partitionDev = "" then ⟨[], .ok (some "partition cannot be empty")⟩
  else if mountpoint = "" then ⟨[], .ok (some "mountpoint cannot be empty")⟩
  else
    (ensureExists env mountpoint).andThen fun _ =>
    (unmountIfMounted env mountpoint).andThen fun _ =>
    (execEval env "mount" (buildMountArgs partitionDev mountpoint options)
      ("mount " ++ partitionDev ++ " at " ++ mountpoint)).andThen fun _ =>
    Step.pure none

/-! ### FilesystemFormatter (partition.go) -/

/-- FilesystemFormatter.Format: skip when NeedsFormatting is false,
otherwise run the mkfs command through ExecEval. -/
def formatFs (env : Env) (blockdevice : String) (fsType : FilesystemType) : Step GoErr :=
  if fsType.NeedsFormatting = false then ⟨[], .ok none⟩
  else
    (execEval env fsType.Command (fsType.Args ++ [blockdevice])
      ("format " ++ blockdevice ++ " as " ++ fsType.Name)).andThen fun _ =>
    Step.pure none

/-- FilesystemFormatter.determineFilesystem. -/
def determineFilesystem (isBoot efi : Bool) : FilesystemType :=
  if isBoot && efi then .Fat32 else .Ext4

/-- FilesystemFormatter.FormatAutoPartition: defensive unmount (errors
ignored), then format with the role-determined filesystem. -/
def formatAutoPartition (env : Env) (p : String) (isBoot efi : Bool) : Step GoErr :=
  (utilExec env "umount" [p]).andThen fun _ =>
  formatFs env p (determineFilesystem isBoot efi)

/-! ### BootFlagManager (partition.go) -/

/-- Flag chosen by BootFlagManager.getFlag. -/
def bootFlag (efi : Bool) : String := if efi then "esp" else "boot"

/-- BootFlagManager.validate. -/
def bootFlagValidate (env : Env) (device partitionNum : String) : GoErr :=
  if partitionNum = "" || isValidPartitionNumber partitionNum = false then
    some ("invalid partition number " ++ ofChars [apoChar] ++ partitionNum ++
      ofChars [apoChar] ++ " for device " ++ device)
  else if env.pathExists device = false then
    some ("device " ++ device ++ " does not exist")
  else none

/-- BootFlagManager.Set: parse, validate (failures are returned as Go
errors), then run parted set through ExecEval (a failed parted call
terminates the process). -/
def bootFlagSet (env : Env) (blockdevice : String) (efi : Bool) : Step GoErr :=
  let pr := Parse blockdevice
  match bootFlagValidate env pr.1 pr.2 with
  | some e => ⟨[], .ok (some e)⟩
  | none =>
      (execEval env "parted" ["-s", pr.1, "set", pr.2, bootFlag efi, "on"]
        ("set " ++ bootFlag efi ++ " flag")).andThen fun _ =>
      Step.pure none

/-- BootFlagManager.TrySet: convert a Set error into a logged warning and
a false result. -/
def bootFlagTrySet (env : Env) (blockdevice : String) (efi : Bool) : Step Bool :=
  (bootFlagSet env blockdevice efi).andThen fun e => Step.pure e.isNone

/-! ### PartitionTable (partition.go) -/

/-- Parted command lists of createGPT (arguments and ExecEval description). -/
def gptCommands (device : String) : List (List String × String) :=
  [(["-s", device, "mklabel", "gpt"], "create GPT label"),
   (["-s", device, "mkpart", "ESP", "fat32", "1MiB", "513MiB"], "create ESP"),
   (["-s", device, "mkpart", "root", "ext4", "513MiB", "100%"], "create root partition")]

/-- Parted command lists of createMBR. -/
def mbrCommands (device : String) : List (List String × String) :=
  [(["-s", device, "mklabel", "msdos"], "create MBR label"),
   (["-s", device, "mkpart", "primary", "ext4", "1MiB", "513MiB"], "create boot partition"),
   (["-s", device, "mkpart", "primary", "ext4", "513MiB", "100%"], "create root partition")]

/-- Commands issued by PartitionTable.Create after the initial unmount. -/
def tableCommands (device : String) (efi : Bool) : List (List String × String) :=
  if efi then gptCommands device else mbrCommands device

/-- PartitionTable.executeCommands: run each parted command through
ExecEval and return nil. -/
def executeCommands (env : Env) : List (List String × String) → Step GoErr
  | [] => ⟨[], .ok none⟩
  | (args, desc) :: rest =>
      (execEval env "parted" args desc).andThen fun _ => executeCommands env rest

/-- PartitionTable.Create: unmount the device (errors ignored), then issue
the GPT or MBR command sequence. -/
def ptCreate (env : Env) (device : String) (efi : Bool) : Step GoErr :=
  (utilExec env "umount" [device]).andThen fun _ =>
  executeCommands env (tableCommands device efi)

end Crystallize

namespace Crystallize

/-! ### PartitionType and the Partitioner flows (partition.go) -/

/-- PartitionType from partition.go. -/
structure PartitionType where
  Mountpoint : String
  BlockDevice : String
  Filesystem : String
deriving DecidableEq, Repr

/-- PartitionType.Validate: non-empty block device that exists on disk. -/
def pValidate (env : Env) (p : PartitionType) : GoErr :=
  if p.BlockDevice = "" then some ("empty blockdevice for mountpoint " ++ p.Mountpoint)
  else if env.pathExists p.BlockDevice = false then
    some ("blockdevice " ++ p.BlockDevice ++ " does not exist")
  else none

/-- PartitionType.IsBootMount. -/
def IsBootMount (p : PartitionType) : Bool :=
  p.Mountpoint = "/boot" || p.Mountpoint = "/mnt/boot"

/-- Partitioner.formatAndMount (the manual-mode per-spec processing):
validate, defensively unmount, classify the filesystem; a NoFormat spec
returns nil immediately (neither formatting nor mounting); otherwise
format, ensure the mount point, mount, and set the boot flag non-fatally
when the mount point is a boot mount. -/
def formatAndMount (env : Env) (p : PartitionType) (efi : Bool) : Step GoErr :=
  match pValidate env p with
  | some e => ⟨[], .ok (some e)⟩
  | none =>
      (utilExec env "umount" [p.BlockDevice]).andThen fun _ =>
      let fsType := ParseFilesystem p.Filesystem
      if fsType = .NoFormat then Step.pure none
      else
        (formatFs env p.BlockDevice fsType).andThenE fun _ =>
        (ensureExists env p.Mountpoint).andThen fun _ =>
        (Mount env p.BlockDevice p.Mountpoint "").andThenE fun _ =>
        if IsBootMount p then
          (bootFlagTrySet env p.BlockDevice efi).andThen fun _ => Step.pure none
        else Step.pure none

/-- FilterValidPartitions: drop specs with an empty block device. -/
def filterValidPartitions (ps : List PartitionType) : List PartitionType :=
  ps.filter fun p => p.BlockDevice ≠ ""

/-- Comparison used by sortByMountpoint: ascending mount point string
length. -/
def byMountLen (a b : PartitionType) : Prop :=
  a.Mountpoint.length ≤ b.Mountpoint.length

/-- Contract of sortByMountpoint.  The Go code calls sort.Slice with the
less function len(mountpoint i) < len(mountpoint j).  sort.Slice is a Go
standard-library collaborator whose documented contract is: the result is
a permutation of the input ordered by the less function, and the sort is
NOT guaranteed to be stable.  A sorter function represents the choice the
library makes; this predicate says the choice satisfies the contract. -/
def GoSortSliceOK (sorter : List PartitionType → List PartitionType) : Prop :=
  ∀ l : List PartitionType, (sorter l).Perm l ∧ (sorter l).Sorted byMountLen

/-- Loop body of Partitioner.manualPartition over the sorted specs: a
failing spec aborts with a wrapped error naming its block device. -/
def processSpecs (env : Env) (efi : Bool) : List PartitionType → Step GoErr
  | [] => ⟨[], .ok none⟩
  | p :: rest =>
      (formatAndMount env p efi).andThenW
        ("failed to process partition " ++ p.BlockDevice ++ ": ") fun _ =>
      processSpecs env efi rest

/-- Partitioner.manualPartition, parameterised by the sorter standing in
for sort.Slice: filter out empty block devices, sort by mount point
length, process each spec in order. -/
def manualPartition (env : Env) (sorter : List PartitionType → List PartitionType)
    (partitions : List PartitionType) (efi : Bool) : Step GoErr :=
  processSpecs env efi (sorter (filterValidPartitions partitions))

/-- Partitioner.formatAndMountAuto: derive the two partition names, format
boot then root, mount root at /mnt, create /mnt/boot, mount boot at
/mnt/boot. -/
def formatAndMountAuto (env : Env) (device : String) (efi : Bool) : Step GoErr :=
  let bootPartition := partName device 1
  let rootPartition := partName device 2
  (formatAutoPartition env bootPartition true efi).andThenW
    "failed to format boot partition: " fun _ =>
  (formatAutoPartition env rootPartition false efi).andThenW
    "failed to format root partition: " fun _ =>
  (Mount env rootPartition "/mnt" "").andThenW "failed to mount root: " fun _ =>
  (filesEvalMkdir env "/mnt/boot" "create /mnt/boot").andThen fun _ =>
  (Mount env bootPartition "/mnt/boot" "").andThenW "failed to mount boot: " fun _ =>
  Step.pure none

/-- Partitioner.autoPartition: check the device exists, create the
partition table, wait for the kernel (not traced), set the boot flag on
partition 1 with failures downgraded to a logged warning, then format and
mount. -/
def autoPartition (env : Env) (device : String) (efi : Bool) : Step GoErr :=
  if env.pathExists device = false then
    ⟨[], .ok (some ("device " ++ device ++ " does not exist"))⟩
  else
    (ptCreate env device efi).andThenW "failed to create partition table: " fun _ =>
    (bootFlagSet env (partName device 1) efi).andThen fun _ =>
    formatAndMountAuto env device efi

/-- Top-level Partition function of partition.go: global cleanup of the
known mount points, then dispatch on the mode string. -/
def PartitionGo (env : Env) (sorter : List PartitionType → List PartitionType)
    (device mode : String) (efi : Bool) (partitions : List PartitionType) : Step GoErr :=
  cleanupAll.andThen fun _ =>
  if mode = "auto" then autoPartition env device efi
  else if mode = "manual" then manualPartition env sorter partitions efi
  else ⟨[], .ok (some ("unsupported partition mode: " ++ mode))⟩

/-! ### Installer pipeline (config.go) -/

/-- Stage descriptor (name and required flag) from config.go. -/
structure GoStage where
  name : String
  required : Bool
deriving DecidableEq, Repr

/-- Installer.buildStages: the fixed ordered stage list. -/
def buildStages : List GoStage :=
  [⟨"Partition Setup", true⟩,
   ⟨"Base System", true⟩,
   ⟨"Chroot Environment", true⟩,
   ⟨"System Keyring", true⟩,
   ⟨"File System Table", true⟩,
   ⟨"Bootloader", true⟩,
   ⟨"Locale Configuration", true⟩,
   ⟨"Network Configuration", true⟩,
   ⟨"User Accounts", true⟩,
   ⟨"Desktop Environment", false⟩,
   ⟨"Additional Packages", false⟩,
   ⟨"System Finalization", true⟩]

/-- Outcome of one stage execution: the Go error it returns and the mount
points it appends to the installer's record while running.  Quantifying
over these assignments models arbitrary collaborator behaviour. -/
structure StageEff where
  err : Option String
  mounts : List String

/-- Loop of Installer.Install: before each stage check the context; run
the stage; a required failure returns the error wrapped with the stage
name; an optional failure is logged and skipped.  Returns the names of
the stages that executed, the recorded mount points and Install's return
value. -/
def installLoop (eff : Nat → StageEff) (ctxDone : Nat → Bool) :
    List GoStage → Nat → List String → List String × List String × Option String
  | [], _, mounts => ([], mounts, none)
  | st :: rest, idx, mounts =>
      if ctxDone idx then ([], mounts, some "installation cancelled")
      else
        let e := eff idx
        let mounts' := mounts ++ e.mounts
        match e.err with
        | some msg =>
            if st.required then ([st.name], mounts', some (st.name ++ ": " ++ msg))
            else
              let r := installLoop eff ctxDone rest (idx + 1) mounts'
              (st.name :: r.1, r.2.1, r.2.2)
        | none =>
            let r := installLoop eff ctxDone rest (idx + 1) mounts'
            (st.name :: r.1, r.2.1, r.2.2)

/-- Events of Installer.unmountPoint: normal unmount first, lazy unmount
only when the normal one fails; both failures are only logged. -/
def unmountPointEvents (env : Env) (mp : String) : List Event :=
  if env.execOk "umount" [mp] then [.exec "umount" [mp]]
  else [.exec "umount" [mp], .exec "umount" ["-l", mp]]

/-- Loop of Installer.cleanup: for idx from len-1 down to 0 unmount the
recorded mount point at idx (the Nat argument is idx+1). -/
def cleanupLoop (env : Env) (mounts : List String) : Nat → List Event
  | 0 => []
  | i + 1 => unmountPointEvents env (mounts.getD i "") ++ cleanupLoop env mounts i

/-- Installer.cleanup: nothing to do without recorded mount points,
otherwise unmount them from the last recorded to the first. -/
def installerCleanup (env : Env) (mounts : List String) : List Event :=
  if mounts = [] then [] else cleanupLoop env mounts mounts.length

/-- Result of Installer.Install: executed stage names, recorded mount
points, the returned Go error and the trace of the deferred cleanup. -/
structure InstallResult where
  executed : List String
  mounts : List String
  ret : Option String
  cleanupTrace : List Event
deriving DecidableEq, Repr

/-- Installer.Install: run the stage loop; the cleanup deferred at the top
of Install runs on the failure exit path and on the success exit path
alike. -/
def Install (env : Env) (stages : List GoStage) (eff : Nat → StageEff)
    (ctxDone : Nat → Bool) : InstallResult :=
  match installLoop eff ctxDone stages 0 [] with
  | (ex, m, some e) => ⟨ex, m, some e, installerCleanup env m⟩
  | (ex, m, none) => ⟨ex, m, none, installerCleanup env m⟩

end Crystallize

namespace Crystallize

/-! ### Config-level partition stage (config.go) -/

/-- Step of Go's path.Clean stack processing for one path component (the
components ".", "" are removed beforehand): ".." pops a poppable entry,
keeps nothing at the root, and accumulates at the front of a relative
path; any other component is pushed.  The stack is kept reversed (most
recent first). -/
def cleanStep (rooted : Bool) (stack : List String) (t : String) : List String :=
  if t = ".." then
    match stack with
    | s :: rest => if s = ".." then ".." :: s :: rest else rest
    | [] => if rooted then [] else [".."]
  else t :: stack

/-- Go filepath.Clean (path.Clean on slash-separated paths), by its
documented algorithm: iteratively replace multiple separators, eliminate
"." components, eliminate ".." together with the preceding component, and
eliminate ".." at the root; an empty result becomes ".". -/
def filepathClean (path : String) : String :=
  if path = "" then "."
  else
    let rooted := path.data.head? == some '/'
    let comps := (path.split fun c => c = '/').filter fun t => t ≠ "" && t ≠ "."
    let stack := comps.foldl (cleanStep rooted) []
    let body := String.intercalate "/" stack.reverse
    if rooted then "/" ++ body
    else if body = "" then "." else body

/-- NormalizeDevicePath from config.go: strip a /dev/ prefix, clean, and
put /dev/ back. -/
def normalizeDevicePath (device : String) : String :=
  let d := if ("/dev/" : String).isPrefixOf device then device.drop 5 else device
  "/dev/" ++ filepathClean d

/-- Break a character list at the first colon. -/
def breakColon : List Char → Option (List Char × List Char)
  | [] => none
  | c :: t =>
      if c = ':' then some ([], t)
      else (breakColon t).map fun pr => (c :: pr.1, pr.2)

/-- Go strings.SplitN(s, ":", 3): at most three pieces, the final piece
keeping any remaining colons. -/
def splitNColon3 (s : String) : List String :=
  match breakColon s.data with
  | none => [s]
  | some (a, r1) =>
      match breakColon r1 with
      | none => [ofChars a, ofChars r1]
      | some (b, r2) => [ofChars a, ofChars b, ofChars r2]

/-- ParsePartitions from config.go: each entry must split into exactly
three fields, mapped positionally onto (mountpoint, blockdevice,
filesystem); otherwise the stage fails with an error naming the entry. -/
def parsePartitionSpecs : Nat → List String → Except String (List PartitionType)
  | _, [] => .ok []
  | i, spec :: rest =>
      match splitNColon3 spec with
      | [a, b, c] => (parsePartitionSpecs (i + 1) rest).map fun ps => ⟨a, b, c⟩ :: ps
      | _ =>
          .error ("partition " ++ Nat.repr i ++ ": invalid format " ++
            ofChars [apoChar] ++ spec ++ ofChars [apoChar])

/-- PartitionConfig from config.go. -/
structure PartitionConfig where
  Device : String
  Mode : String
  EFI : Bool
  Partitions : List String
deriving Repr

/-- Installer.setupPartitions: normalize the device path, parse the mode
(an unknown mode is only logged as a warning, keeping the returned auto
mode), parse the partition strings (a malformed entry fails the stage),
then call Partition with the error wrapped as "partition disk:". -/
def setupPartitions (env : Env) (sorter : List PartitionType → List PartitionType)
    (pc : PartitionConfig) : Step GoErr :=
  let devicePath := normalizeDevicePath pc.Device
  let mode := (ParsePartitionMode pc.Mode).1
  match parsePartitionSpecs 0 pc.Partitions with
  | .error e => ⟨[], .ok (some e)⟩
  | .ok partitions =>
      (PartitionGo env sorter devicePath mode pc.EFI partitions).andThenW
        "partition disk: " fun _ => Step.pure none

end Crystallize

namespace Crystallize

/-! ### Generic helper lemmas -/

theorem data_append (s t : String) : (s ++ t).data = s.data ++ t.data := by
  cases s
  cases t
  rfl

theorem partName_ne_empty (device : String) (n : Nat) (h : (Nat.repr n).data ≠ []) :
    ¬ partName device n = "" := by
  intro he
  have hd : (partName device n).data = [] := by rw [he]
  rw [partName, data_append, data_append] at hd
  rcases List.append_eq_nil.mp hd with ⟨hl, hr⟩
  rcases List.append_eq_nil.mp hl with ⟨-, -⟩
  exact h hr

/-- Unfolded form of ParseFilesystem on a non-empty input. -/
theorem parseFilesystem_eq (s : String) (hs : ¬ s = "") :
    ParseFilesystem s =
      match filesystemMapLookup (goTrimSpace (goToLower s)) with
      | some t => t
      | none =>
          if isNoFormatVariation (goTrimSpace (goToLower s)) then .NoFormat
          else .Ext4 := by
  simp [ParseFilesystem, hs]

/-- Environment in which every path exists and every external operation
succeeds. -/
def envAllOk : Env := ⟨fun _ => true, fun _ _ => true, fun _ => true⟩

/-! ### C7 — ParseFilesystem is total and classifies as specified -/

/-- C7: ParseFilesystem is a total function: for every input it returns
one of the five FilesystemType variants and never an error; it maps
(case-insensitively, whitespace-trimmed) "ext4", "fat32", "btrfs", "xfs"
to their variants, maps each of "noformat", "no-format", "no format",
"don't format", "Do Not Format", "skip formatting" to NoFormat, and
returns Ext4 for every unrecognized input including the empty string. -/
theorem c7_parse_filesystem_total :
    (∀ s : String, ParseFilesystem s = .Ext4 ∨ ParseFilesystem s = .Fat32 ∨
        ParseFilesystem s = .Btrfs ∨ ParseFilesystem s = .Xfs ∨
        ParseFilesystem s = .NoFormat) ∧
    (∀ s : String, goTrimSpace (goToLower s) = "ext4" → ParseFilesystem s = .Ext4) ∧
    (∀ s : String, goTrimSpace (goToLower s) = "fat32" → ParseFilesystem s = .Fat32) ∧
    (∀ s : String, goTrimSpace (goToLower s) = "btrfs" → ParseFilesystem s = .Btrfs) ∧
    (∀ s : String, goTrimSpace (goToLower s) = "xfs" → ParseFilesystem s = .Xfs) ∧
    ParseFilesystem "noformat" = .NoFormat ∧
    ParseFilesystem "no-format" = .NoFormat ∧
    ParseFilesystem "no format" = .NoFormat ∧
    ParseFilesystem dontFormatKey = .NoFormat ∧
    ParseFilesystem "Do Not Format" = .NoFormat ∧
    ParseFilesystem "skip formatting" = .NoFormat ∧
    ParseFilesystem "" = .Ext4 ∧
    (∀ s : String, RecognizedFs s = false → ParseFilesystem s = .Ext4) := by
  refine ⟨?_, ?_, ?_, ?_, ?_, by decide, by decide, by decide, by decide, by decide,
    by decide, by decide, ?_⟩
  · intro s
    cases h : ParseFilesystem s <;> simp [h]
  · intro s h
    have hs : ¬ s = "" := by
      intro he
      subst he
      exact absurd h (by decide)
    rw [parseFilesystem_eq s hs, h]
    decide
  · intro s h
    have hs : ¬ s = "" := by
      intro he
      subst he
      exact absurd h (by decide)
    rw [parseFilesystem_eq s hs, h]
    decide
  · intro s h
    have hs : ¬ s = "" := by
      intro he
      subst he
      exact absurd h (by decide)
    rw [parseFilesystem_eq s hs, h]
    decide
  · intro s h
    have hs : ¬ s = "" := by
      intro he
      subst he
      exact absurd h (by decide)
    rw [parseFilesystem_eq s hs, h]
    decide
  · intro s h
    by_cases hs : s = ""
    · subst hs
      rfl
    · rw [parseFilesystem_eq s hs]
      rw [RecognizedFs] at h
      rcases hor : filesystemMapLookup (goTrimSpace (goToLower s)) with - | t
      · simp only [hor]
        simp only [hor, Option.isSome_none, Bool.false_or] at h
        simp [h]
      · rw [hor] at h
        simp at h

/-- Witness for C7 at concrete inputs. -/
theorem c7_parse_filesystem_total_witness :
    ParseFilesystem " EXT4 " = .Ext4 ∧ ParseFilesystem "garbage" = .Ext4 :=
  ⟨c7_parse_filesystem_total.2.1 " EXT4 " (by decide),
   c7_parse_filesystem_total.2.2.2.2.2.2.2.2.2.2.2.2 "garbage" (by decide)⟩

/-! ### C9 — PartitionTable.Create never propagates a command failure -/

theorem executeCommands_out (env : Env) :
    ∀ cmds, (executeCommands env cmds).out = .ok none ∨
      ∃ d, (executeCommands env cmds).out = .crashed d := by
  intro cmds
  induction cmds with
  | nil => exact Or.inl rfl
  | cons c rest ih =>
      rcases c with ⟨args, desc⟩
      by_cases h : env.execOk "parted" args = true
      · simpa [executeCommands, execEval, h, Step.andThen] using ih
      · simp only [Bool.not_eq_true] at h
        exact Or.inr ⟨desc, by simp [executeCommands, execEval, h, Step.andThen]⟩

/-- C9: PartitionTable.Create never propagates a partitioning-command
failure through its Go-level error return: whenever it returns at all it
returns nil, for every device and EFI flag and every command outcome; a
failing parted command instead terminates the process via ExecEval and
utils.Crash. -/
theorem c9_partition_table_create_never_errors (env : Env) (device : String) (efi : Bool) :
    (ptCreate env device efi).out = .ok none ∨
      ∃ d, (ptCreate env device efi).out = .crashed d := by
  have h := executeCommands_out env (tableCommands device efi)
  rcases h with h | ⟨d, h⟩
  · exact Or.inl (by simp [ptCreate, utilExec, Step.andThen, h])
  · exact Or.inr ⟨d, by simp [ptCreate, utilExec, Step.andThen, h]⟩

/-! ### C5 — Automatic-mode filesystem choice and EFI order -/

/-- Format and mount commands appearing in a trace, in order. -/
def formatMountEvents (tr : List Event) : List Event :=
  tr.filter fun ev =>
    match ev with
    | .exec c _ =>
        c == "mkfs.ext4" || c == "mkfs.fat" || c == "mkfs.btrfs" || c == "mkfs.xfs" ||
          c == "mount"
    | .mkdir _ => false

/-- C5: in automatic mode the filesystem is fat32 exactly when the
partition is the boot partition and EFI mode is on, and ext4 in every
other case; an EFI run on device D formats partition 1 as fat32, formats
partition 2 as ext4, mounts partition 2 at /mnt and then partition 1 at
/mnt/boot, in that order. -/
theorem c5_auto_filesystem_choice_and_order :
    (∀ isBoot efi : Bool,
       (determineFilesystem isBoot efi = .Fat32 ↔ isBoot = true ∧ efi = true) ∧
       (¬(isBoot = true ∧ efi = true) → determineFilesystem isBoot efi = .Ext4)) ∧
    (∀ (env : Env) (device : String),
       env.execOk "mkfs.fat" ["-F32", partName device 1] = true →
       env.execOk "mkfs.ext4" ["-F", partName device 2] = true →
       env.execOk "mount" [partName device 2, "/mnt"] = true →
       env.execOk "mount" [partName device 1, "/mnt/boot"] = true →
       env.mkdirOk "/mnt" = true →
       env.mkdirOk "/mnt/boot" = true →
       (formatAndMountAuto env device true).out = .ok none ∧
       formatMountEvents (formatAndMountAuto env device true).trace =
         [.exec "mkfs.fat" ["-F32", partName device 1],
          .exec "mkfs.ext4" ["-F", partName device 2],
          .exec "mount" [partName device 2, "/mnt"],
          .exec "mount" [partName device 1, "/mnt/boot"]]) := by
  constructor
  · intro isBoot efi
    constructor
    · cases isBoot <;> cases efi <;> simp [determineFilesystem]
    · cases isBoot <;> cases efi <;> simp [determineFilesystem]
  · intro env device h1 h2 h3 h4 h5 h6
    have hp1 : ¬ partName device 1 = "" := partName_ne_empty device 1 (by decide)
    have hp2 : ¬ partName device 2 = "" := partName_ne_empty device 2 (by decide)
    cases hm1 : env.pathExists "/mnt" <;>
      cases hq1 : env.execOk "mountpoint" ["-q", "/mnt"] <;>
        cases hm2 : env.pathExists "/mnt/boot" <;>
          cases hq2 : env.execOk "mountpoint" ["-q", "/mnt/boot"] <;>
            simp [formatAndMountAuto, formatAutoPartition, formatFs, determineFilesystem,
              FilesystemType.NeedsFormatting, FilesystemType.Command, FilesystemType.Args,
              FilesystemType.Name, Mount, ensureExists, unmountIfMounted, isMounted,
              utilExec, execEval, filesEvalMkdir, buildMountArgs, Step.andThen,
              Step.andThenW, Step.andThenE, Step.pure, formatMountEvents,
              h1, h2, h3, h4, h5, h6, hm1, hq1, hm2, hq2, hp1, hp2]

/-- Witness for C5 in the all-success environment on /dev/sda. -/
theorem c5_auto_filesystem_choice_and_order_witness :
    (formatAndMountAuto envAllOk "/dev/sda" true).out = .ok none ∧
    formatMountEvents (formatAndMountAuto envAllOk "/dev/sda" true).trace =
      [.exec "mkfs.fat" ["-F32", partName "/dev/sda" 1],
       .exec "mkfs.ext4" ["-F", partName "/dev/sda" 2],
       .exec "mount" [partName "/dev/sda" 2, "/mnt"],
       .exec "mount" [partName "/dev/sda" 1, "/mnt/boot"]] :=
  c5_auto_filesystem_choice_and_order.2 envAllOk "/dev/sda" rfl rfl rfl rfl rfl rfl

end Crystallize

namespace Crystallize

/-! ### C2 — Required versus optional stage failure in Install -/

theorem installLoop_all_ok (eff : Nat → StageEff) (ctx : Nat → Bool)
    (hc : ∀ n, ctx n = false) :
    ∀ (stages : List GoStage) (idx : Nat) (mounts : List String),
      (∀ i (hi : i < stages.length),
        (stages.get ⟨i, hi⟩).required = true → (eff (idx + i)).err = none) →
      (installLoop eff ctx stages idx mounts).1 = stages.map GoStage.name ∧
      (installLoop eff ctx stages idx mounts).2.2 = none := by
  intro stages
  induction stages with
  | nil => intro idx mounts _; exact ⟨rfl, rfl⟩
  | cons st rest ih =>
      intro idx mounts h
      have hshift : ∀ i (hi : i < rest.length),
          (rest.get ⟨i, hi⟩).required = true → (eff (idx + 1 + i)).err = none := by
        intro i hi hreq
        have heq : idx + 1 + i = idx + (i + 1) := by omega
        rw [heq]
        exact h (i + 1) (Nat.succ_lt_succ hi) (by simpa using hreq)
      have hr := ih (idx + 1) (mounts ++ (eff idx).mounts) hshift
      have hr1 := hr.1
      have hr2 := hr.2
      cases herr : (eff idx).err with
      | none =>
          constructor
          · simp [installLoop, hc idx, herr, hr1]
          · simp [installLoop, hc idx, herr, hr2]
      | some msg =>
          have hreq : st.required = false := by
            cases hq : st.required
            · rfl
            · have := h 0 (Nat.succ_pos rest.length) (by simpa using hq)
              rw [Nat.add_zero] at this
              rw [this] at herr
              exact absurd herr (by simp)
          constructor
          · simp [installLoop, hc idx, herr, hreq, hr1]
          · simp [installLoop, hc idx, herr, hreq, hr2]

theorem installLoop_required_fail (eff : Nat → StageEff) (ctx : Nat → Bool)
    (hc : ∀ n, ctx n = false) :
    ∀ (stages : List GoStage) (idx : Nat) (mounts : List String) (i : Nat)
      (hi : i < stages.length) (msg : String),
      (stages.get ⟨i, hi⟩).required = true →
      (eff (idx + i)).err = some msg →
      (∀ j (hj : j < i),
        (stages.get ⟨j, Nat.lt_trans hj hi⟩).required = true → (eff (idx + j)).err = none) →
      (installLoop eff ctx stages idx mounts).1 = (stages.take (i + 1)).map GoStage.name ∧
      (installLoop eff ctx stages idx mounts).2.2 =
        some ((stages.get ⟨i, hi⟩).name ++ ": " ++ msg) := by
  intro stages
  induction stages with
  | nil => intro idx mounts i hi; exact absurd hi (by simp)
  | cons st rest ih =>
      intro idx mounts i hi msg hreq herr hprev
      cases i with
      | zero =>
          rw [Nat.add_zero] at herr
          have hreq0 : st.required = true := by simpa using hreq
          constructor
          · simp [installLoop, hc idx, herr, hreq0]
          · simp [installLoop, hc idx, herr, hreq0]
      | succ k =>
          have hk : k < rest.length := Nat.lt_of_succ_lt_succ hi
          have hreq' : (rest.get ⟨k, hk⟩).required = true := by simpa using hreq
          have herr' : (eff (idx + 1 + k)).err = some msg := by
            have heq : idx + 1 + k = idx + (k + 1) := by omega
            rw [heq]
            exact herr
          have hprev' : ∀ j (hj : j < k),
              (rest.get ⟨j, Nat.lt_trans hj hk⟩).required = true →
                (eff (idx + 1 + j)).err = none := by
            intro j hj hr
            have heq : idx + 1 + j = idx + (j + 1) := by omega
            rw [heq]
            exact hprev (j + 1) (Nat.succ_lt_succ hj) (by simpa using hr)
          have hr := ih (idx + 1) (mounts ++ (eff idx).mounts) k hk msg hreq' herr' hprev'
          have hr1 := hr.1
          have hr2 := hr.2
          have hget : ((st :: rest).get ⟨k + 1, hi⟩).name = (rest.get ⟨k, hk⟩).name := by
            simp
          cases herr0 : (eff idx).err with
          | none =>
              constructor
              · simp [installLoop, hc idx, herr0, hr1]
              · rw [hget]
                simp [installLoop, hc idx, herr0, hr2]
          | some m0 =>
              have hreq0 : st.required = false := by
                cases hq : st.required
                · rfl
                · have := hprev 0 (Nat.succ_pos k) (by simpa using hq)
                  rw [Nat.add_zero] at this
                  rw [this] at herr0
                  exact absurd herr0 (by simp)
              constructor
              · simp [installLoop, hc idx, herr0, hreq0, hr1]
              · rw [hget]
                simp [installLoop, hc idx, herr0, hreq0, hr2]

/-- C2: with any stage list and any stage outcome assignment (and no
context cancellation): when every required stage succeeds, every stage
executes and Install returns success regardless of optional-stage
failures; when a required stage fails first, exactly the stages up to and
including it execute (no later stage runs) and Install returns an error
prefixed with the failed stage's name.  The optional stages of the fixed
buildStages pipeline are exactly Desktop Environment and Additional
Packages. -/
theorem c2_install_stage_failure_semantics :
    (∀ (env : Env) (stages : List GoStage) (eff : Nat → StageEff) (ctx : Nat → Bool),
       (∀ n, ctx n = false) →
       (∀ i (hi : i < stages.length),
         (stages.get ⟨i, hi⟩).required = true → (eff i).err = none) →
       (Install env stages eff ctx).executed = stages.map GoStage.name ∧
       (Install env stages eff ctx).ret = none) ∧
    (∀ (env : Env) (stages : List GoStage) (eff : Nat → StageEff) (ctx : Nat → Bool)
       (i : Nat) (hi : i < stages.length) (msg : String),
       (∀ n, ctx n = false) →
       (stages.get ⟨i, hi⟩).required = true →
       (eff i).err = some msg →
       (∀ j (hj : j < i),
         (stages.get ⟨j, Nat.lt_trans hj hi⟩).required = true → (eff j).err = none) →
       (Install env stages eff ctx).executed = (stages.take (i + 1)).map GoStage.name ∧
       (Install env stages eff ctx).ret =
         some ((stages.get ⟨i, hi⟩).name ++ ": " ++ msg)) ∧
    (buildStages.filter fun s => s.required = false).map GoStage.name =
      ["Desktop Environment", "Additional Packages"] := by
  refine ⟨?_, ?_, by decide⟩
  · intro env stages eff ctx hc h
    have hz : ∀ i (hi : i < stages.length),
        (stages.get ⟨i, hi⟩).required = true → (eff (0 + i)).err = none := by
      intro i hi hr
      rw [Nat.zero_add]
      exact h i hi hr
    have hmain := installLoop_all_ok eff ctx hc stages 0 [] hz
    rcases hl : installLoop eff ctx stages 0 [] with ⟨ex, m, r⟩
    rw [hl] at hmain
    cases r with
    | none =>
        constructor
        · have h1 := hmain.1
          simp only at h1
          simp [Install, hl, h1]
        · simp [Install, hl]
    | some e => exact absurd hmain.2 (by simp)
  · intro env stages eff ctx i hi msg hc hreq herr hprev
    have herr0 : (eff (0 + i)).err = some msg := by rw [Nat.zero_add]; exact herr
    have hprev0 : ∀ j (hj : j < i),
        (stages.get ⟨j, Nat.lt_trans hj hi⟩).required = true → (eff (0 + j)).err = none := by
      intro j hj hr
      rw [Nat.zero_add]
      exact hprev j hj hr
    have hmain := installLoop_required_fail eff ctx hc stages 0 [] i hi msg hreq herr0 hprev0
    rcases hl : installLoop eff ctx stages 0 [] with ⟨ex, m, r⟩
    rw [hl] at hmain
    cases r with
    | none => exact absurd hmain.2 (by simp)
    | some e =>
        have h1 := hmain.1
        have h2 := hmain.2
        simp only at h1 h2
        simp only [Option.some.injEq] at h2
        constructor
        · simp [Install, hl, h1]
        · simp [Install, hl, h2]

/-- Witness for C2: with the fixed pipeline, a failing optional Desktop
Environment stage (index 9) leaves all twelve stages executed and Install
successful, while a failing required Base System stage (index 1) stops
the run after two stages with an error naming the stage. -/
theorem c2_install_stage_failure_semantics_witness :
    (Install envAllOk buildStages
        (fun i => if i = 9 then ⟨some "desktop boom", []⟩ else ⟨none, []⟩)
        (fun _ => false)).executed = buildStages.map GoStage.name ∧
    (Install envAllOk buildStages
        (fun i => if i = 9 then ⟨some "desktop boom", []⟩ else ⟨none, []⟩)
        (fun _ => false)).ret = none ∧
    (Install envAllOk buildStages
        (fun i => if i = 1 then ⟨some "pacstrap failed", []⟩ else ⟨none, []⟩)
        (fun _ => false)).executed = ["Partition Setup", "Base System"] ∧
    (Install envAllOk buildStages
        (fun i => if i = 1 then ⟨some "pacstrap failed", []⟩ else ⟨none, []⟩)
        (fun _ => false)).ret = some "Base System: pacstrap failed" := by
  have h1 := c2_install_stage_failure_semantics.1 envAllOk buildStages
    (fun i => if i = 9 then ⟨some "desktop boom", []⟩ else ⟨none, []⟩)
    (fun _ => false) (fun _ => rfl) (by decide)
  have h2 := c2_install_stage_failure_semantics.2.1 envAllOk buildStages
    (fun i => if i = 1 then ⟨some "pacstrap failed", []⟩ else ⟨none, []⟩)
    (fun _ => false) 1 (by decide) "pacstrap failed" (fun _ => rfl) (by decide)
    (by decide) (by decide)
  refine ⟨h1.1, h1.2, ?_, ?_⟩
  · have := h2.1
    simpa using this
  · have := h2.2
    simpa using this

end Crystallize

namespace Crystallize

/-! ### C3 — Deferred cleanup: reverse order, lazy fallback, never fatal -/

/-- Extract the target of a normal unmount attempt. -/
def normalUmount? : Event → Option String
  | .exec c [mp] => if c = "umount" then some mp else none
  | _ => none

/-- Extract the target of a lazy unmount attempt. -/
def lazyUmount? : Event → Option String
  | .exec c [f, mp] => if c = "umount" ∧ f = "-l" then some mp else none
  | _ => none

/-- Targets of the normal unmount attempts in a trace, in order. -/
def normalUmountTargets (tr : List Event) : List String := tr.filterMap normalUmount?

/-- Targets of the lazy unmount attempts in a trace, in order. -/
def lazyUmountTargets (tr : List Event) : List String := tr.filterMap lazyUmount?

theorem normalUmount?_normal (mp : String) : normalUmount? (.exec "umount" [mp]) = some mp := by
  simp [normalUmount?]

theorem normalUmount?_lazy (mp : String) : normalUmount? (.exec "umount" ["-l", mp]) = none := rfl

theorem lazyUmount?_normal (mp : String) : lazyUmount? (.exec "umount" [mp]) = none := rfl

theorem lazyUmount?_lazy (mp : String) : lazyUmount? (.exec "umount" ["-l", mp]) = some mp := by
  simp [lazyUmount?]

theorem cleanupLoop_eq_take (env : Env) (mounts : List String) :
    ∀ n, n ≤ mounts.length →
      cleanupLoop env mounts n =
        ((mounts.take n).reverse).flatMap (unmountPointEvents env) := by
  intro n
  induction n with
  | zero => intro _; simp [cleanupLoop]
  | succ k ih =>
      intro h
      have hk : k < mounts.length := h
      have hget : mounts.getD k "" = mounts[k] := by
        simp [List.getD_eq_getElem?_getD, List.getElem?_eq_getElem hk]
      have htake : mounts.take (k + 1) = mounts.take k ++ [mounts[k]] := by
        rw [List.take_succ]
        simp [List.getElem?_eq_getElem hk]
      rw [cleanupLoop, ih (Nat.le_of_lt hk), hget]
      rw [htake]
      simp only [List.reverse_append, List.flatMap_append, List.reverse_cons, List.reverse_nil,
        List.nil_append, List.flatMap_cons, List.flatMap_nil, List.append_nil]

theorem installerCleanup_eq (env : Env) (mounts : List String) :
    installerCleanup env mounts = (mounts.reverse).flatMap (unmountPointEvents env) := by
  by_cases h : mounts = []
  · subst h
    rfl
  · rw [installerCleanup, if_neg h, cleanupLoop_eq_take env mounts mounts.length le_rfl,
      List.take_length]

theorem normalUmountTargets_flat (env : Env) :
    ∀ l : List String, normalUmountTargets (l.flatMap (unmountPointEvents env)) = l := by
  intro l
  induction l with
  | nil => rfl
  | cons mp rest ih =>
      rw [List.flatMap_cons]
      rw [normalUmountTargets, List.filterMap_append]
      cases h : env.execOk "umount" [mp] <;>
        simp [unmountPointEvents, h, normalUmount?_normal, normalUmount?_lazy,
          normalUmountTargets] at ih ⊢ <;>
        exact ih

theorem lazyUmountTargets_flat (env : Env) :
    ∀ l : List String,
      lazyUmountTargets (l.flatMap (unmountPointEvents env)) =
        l.filter fun mp => env.execOk "umount" [mp] = false := by
  intro l
  induction l with
  | nil => rfl
  | cons mp rest ih =>
      rw [List.flatMap_cons]
      rw [lazyUmountTargets, List.filterMap_append]
      cases h : env.execOk "umount" [mp] <;>
        simp [unmountPointEvents, h, lazyUmount?_normal, lazyUmount?_lazy,
          lazyUmountTargets] at ih ⊢ <;>
        simp [ih]

theorem unmountPointEvents_shape (env : Env) (mp : String) :
    unmountPointEvents env mp =
      (if env.execOk "umount" [mp] then [.exec "umount" [mp]]
       else [.exec "umount" [mp], .exec "umount" ["-l", mp]]) := rfl

/-- C3: the deferred cleanup attempts to unmount the recorded mount points
in exactly the reverse of the recorded order — a normal unmount for each,
with a lazy unmount following exactly when the normal one fails — emits
nothing but umount commands (in particular it can neither crash nor
return an error), and its trace is produced on every exit path of Install
(success, required-stage failure, or cancellation). -/
theorem c3_cleanup_reverse_lifo_and_always_runs :
    (∀ (env : Env) (stages : List GoStage) (eff : Nat → StageEff) (ctx : Nat → Bool),
       (Install env stages eff ctx).cleanupTrace =
         installerCleanup env (Install env stages eff ctx).mounts) ∧
    (∀ (env : Env) (mounts : List String),
       installerCleanup env mounts = mounts.reverse.flatMap (unmountPointEvents env) ∧
       normalUmountTargets (installerCleanup env mounts) = mounts.reverse ∧
       lazyUmountTargets (installerCleanup env mounts) =
         mounts.reverse.filter (fun mp => env.execOk "umount" [mp] = false) ∧
       (∀ ev, ev ∈ installerCleanup env mounts →
          ∃ mp, ev = .exec "umount" [mp] ∨ ev = .exec "umount" ["-l", mp])) := by
  constructor
  · intro env stages eff ctx
    rcases hl : installLoop eff ctx stages 0 [] with ⟨ex, m, r⟩
    cases r <;> simp [Install, hl]
  · intro env mounts
    refine ⟨installerCleanup_eq env mounts, ?_, ?_, ?_⟩
    · rw [installerCleanup_eq]
      exact normalUmountTargets_flat env mounts.reverse
    · rw [installerCleanup_eq]
      exact lazyUmountTargets_flat env mounts.reverse
    · intro ev hev
      rw [installerCleanup_eq] at hev
      rcases List.mem_flatMap.mp hev with ⟨mp, -, hin⟩
      refine ⟨mp, ?_⟩
      rw [unmountPointEvents_shape] at hin
      by_cases h : env.execOk "umount" [mp] = true
      · rw [if_pos h] at hin
        simp at hin
        exact Or.inl hin
      · rw [if_neg h] at hin
        simp at hin
        exact hin

/-- Witness for C3: the membership fact applied at a concrete cleanup
trace. -/
theorem c3_cleanup_reverse_lifo_and_always_runs_witness :
    ∃ mp, Event.exec "umount" ["/mnt"] = .exec "umount" [mp] ∨
      Event.exec "umount" ["/mnt"] = .exec "umount" ["-l", mp] :=
  (c3_cleanup_reverse_lifo_and_always_runs.2 envAllOk ["/mnt", "/mnt/boot"]).2.2.2
    (.exec "umount" ["/mnt"]) (by decide)

end Crystallize

namespace Crystallize

/-! ### C1 — Manual-mode NoFormat specs

The claim says a NoFormat spec is mounted without being formatted.  The
code (Partitioner.formatAndMount) instead returns nil immediately after
classifying the filesystem, skipping the format AND the mount: its debug
message reads "Skipping format and mount for ... (noformat)". -/

/-- Counterexample to C1: a valid NoFormat spec is processed successfully,
but the trace contains only the defensive unmount — no mount of the block
device at the spec's mount point (and no formatting) ever happens. -/
theorem c1_noformat_counterexample :
    (formatAndMount envAllOk ⟨"/mnt", "/dev/sda1", "noformat"⟩ true).out = .ok none ∧
    (formatAndMount envAllOk ⟨"/mnt", "/dev/sda1", "noformat"⟩ true).trace =
      [.exec "umount" ["/dev/sda1"]] ∧
    Event.exec "mount" ["/dev/sda1", "/mnt"] ∉
      (formatAndMount envAllOk ⟨"/mnt", "/dev/sda1", "noformat"⟩ true).trace ∧
    formatMountEvents
      (formatAndMount envAllOk ⟨"/mnt", "/dev/sda1", "noformat"⟩ true).trace = [] := by
  refine ⟨by decide, by decide, by decide, by decide⟩

/-- C1 amended: for every partition spec whose filesystem string
classifies as NoFormat (non-empty, existing block device), processing the
spec skips both formatting and mounting: it performs only the defensive
unmount and returns success immediately (no boot-flag logic either). -/
theorem c1_noformat_skips_format_and_mount (env : Env) (p : PartitionType) (efi : Bool)
    (hfs : ParseFilesystem p.Filesystem = .NoFormat)
    (hbd : ¬ p.BlockDevice = "")
    (hex : env.pathExists p.BlockDevice = true) :
    formatAndMount env p efi = ⟨[.exec "umount" [p.BlockDevice]], .ok none⟩ := by
  simp [formatAndMount, pValidate, hbd, hex, hfs, utilExec, Step.andThen, Step.pure]

/-- Witness for the amended C1. -/
theorem c1_noformat_skips_format_and_mount_witness :
    formatAndMount envAllOk ⟨"/mnt", "/dev/sdb2", "no-format"⟩ false =
      ⟨[.exec "umount" ["/dev/sdb2"]], .ok none⟩ :=
  c1_noformat_skips_format_and_mount envAllOk ⟨"/mnt", "/dev/sdb2", "no-format"⟩ false
    (by decide) (by decide) rfl

/-! ### C4 — Boot-flag failures in the automatic flow

BootFlagManager.Set returns validation failures as Go errors, which
autoPartition downgrades to a warning; but the parted invocation itself
goes through ExecEval, so a non-zero exit of the external partitioning
tool terminates the whole process and the flow never reaches formatting
or mounting. -/

/-- Step s runs a prefix of work and then behaves exactly like t. -/
def continuesInto (s t : Step GoErr) : Prop :=
  ∃ pre, s.trace = pre ++ t.trace ∧ s.out = t.out

theorem executeCommands_all_ok (env : Env) :
    ∀ cmds, (∀ c ∈ cmds, env.execOk "parted" c.1 = true) →
      executeCommands env cmds =
        ⟨cmds.map fun c => .exec "parted" c.1, .ok none⟩ := by
  intro cmds
  induction cmds with
  | nil => intro _; rfl
  | cons c rest ih =>
      intro h
      have hc := h c (List.mem_cons_self c rest)
      have hr := ih fun d hd => h d (List.mem_cons_of_mem c hd)
      rcases c with ⟨args, desc⟩
      simp only at hc
      simp [executeCommands, execEval, hc, Step.andThen, hr]

/-- Environment in which everything succeeds except the parted call that
sets the esp flag on /dev/sda partition 1. -/
def envEspSetFails : Env :=
  ⟨fun _ => true,
   fun cmd args => !(cmd == "parted" && args == ["-s", "/dev/sda", "set", "1", "esp", "on"]),
   fun _ => true⟩

/-- Counterexample to C4: with every other command succeeding, a non-zero
exit of the external partitioning tool during boot-flag assignment
terminates the process (Outcome.crashed), and the automatic flow never
reaches formatting or mounting — no mkfs or mount command appears in the
trace. -/
theorem c4_bootflag_exec_failure_counterexample :
    (autoPartition envEspSetFails "/dev/sda" true).out = .crashed "set esp flag" ∧
    formatMountEvents (autoPartition envEspSetFails "/dev/sda" true).trace = [] := by
  refine ⟨by decide, by decide⟩

/-- C4 amended: during automatic partitioning (existing device, partition
table created successfully), a boot-flag VALIDATION failure is downgraded
to a warning and the flow proceeds to formatting and mounting; and when
validation passes, the flow proceeds if and only if the external parted
set command succeeds — a non-zero exit terminates the process via
ExecEval/Crash and no format or mount command is ever issued. -/
theorem c4_bootflag_validation_warned_exec_crash (env : Env) (device : String) (efi : Bool)
    (hdev : env.pathExists device = true)
    (htab : ∀ c ∈ tableCommands device efi, env.execOk "parted" c.1 = true) :
    (bootFlagValidate env (Parse (partName device 1)).1 (Parse (partName device 1)).2 ≠ none →
       continuesInto (autoPartition env device efi) (formatAndMountAuto env device efi)) ∧
    (bootFlagValidate env (Parse (partName device 1)).1 (Parse (partName device 1)).2 = none →
       (env.execOk "parted"
           ["-s", (Parse (partName device 1)).1, "set", (Parse (partName device 1)).2,
            bootFlag efi, "on"] = true →
          continuesInto (autoPartition env device efi) (formatAndMountAuto env device efi)) ∧
       (env.execOk "parted"
           ["-s", (Parse (partName device 1)).1, "set", (Parse (partName device 1)).2,
            bootFlag efi, "on"] = false →
          (autoPartition env device efi).out = .crashed ("set " ++ bootFlag efi ++ " flag") ∧
          formatMountEvents (autoPartition env device efi).trace = [])) := by
  have hpt : ptCreate env device efi =
      ⟨.exec "umount" [device] :: (tableCommands device efi).map (fun c => .exec "parted" c.1),
        .ok none⟩ := by
    rw [ptCreate]
    rw [executeCommands_all_ok env (tableCommands device efi) htab]
    rfl
  have hauto : autoPartition env device efi =
      (ptCreate env device efi).andThenW "failed to create partition table: " fun _ =>
        (bootFlagSet env (partName device 1) efi).andThen fun _ =>
          formatAndMountAuto env device efi := by
    rw [autoPartition]
    simp [hdev]
  have hpre : ∀ s : Step GoErr,
      (ptCreate env device efi).andThenW "failed to create partition table: "
        (fun _ => (bootFlagSet env (partName device 1) efi).andThen fun _ => s) =
      ⟨(.exec "umount" [device] ::
          (tableCommands device efi).map (fun c => .exec "parted" c.1)) ++
          ((bootFlagSet env (partName device 1) efi).andThen fun _ => s).trace,
        ((bootFlagSet env (partName device 1) efi).andThen fun _ => s).out⟩ := by
    intro s
    rw [hpt]
    rfl
  constructor
  · intro hval
    rcases hv : bootFlagValidate env (Parse (partName device 1)).1 (Parse (partName device 1)).2
      with - | e
    · exact absurd hv hval
    · rw [hauto, hpre]
      refine ⟨.exec "umount" [device] ::
        (tableCommands device efi).map (fun c => .exec "parted" c.1), ?_, ?_⟩ <;>
        simp [bootFlagSet, hv, Step.andThen]
  · intro hval
    constructor
    · intro hset
      rw [hauto, hpre]
      refine ⟨(.exec "umount" [device] ::
        (tableCommands device efi).map (fun c => .exec "parted" c.1)) ++
        [.exec "parted" [ "-s", (Parse (partName device 1)).1, "set",
          (Parse (partName device 1)).2, bootFlag efi, "on"]], ?_, ?_⟩ <;>
        simp [bootFlagSet, hval, execEval, hset, Step.andThen, Step.pure]
    · intro hset
      have hbfs : ((bootFlagSet env (partName device 1) efi).andThen fun _ =>
          formatAndMountAuto env device efi) =
          ⟨[.exec "parted" ["-s", (Parse (partName device 1)).1, "set",
             (Parse (partName device 1)).2, bootFlag efi, "on"]],
            .crashed ("set " ++ bootFlag efi ++ " flag")⟩ := by
        simp [bootFlagSet, hval, execEval, hset, Step.andThen]
      rw [hauto, hpre, hbfs]
      constructor
      · rfl
      · cases hefi : efi <;>
          simp [formatMountEvents, tableCommands, gptCommands, mbrCommands]

/-- Environment in which every command succeeds and every path except
/dev/loop exists. -/
def envLoopBase : Env :=
  ⟨fun p => !(p == "/dev/loop"), fun _ _ => true, fun _ => true⟩

/-- Witness for the amended C4: on /dev/loop0 the derived partition name
/dev/loop01 parses back to the non-existing base device /dev/loop, so
validation fails and the flow still continues into formatting and
mounting; in envEspSetFails validation passes, the parted set command
fails, and the run crashes without any format or mount command. -/
theorem c4_bootflag_validation_warned_exec_crash_witness :
    continuesInto (autoPartition envLoopBase "/dev/loop0" true)
      (formatAndMountAuto envLoopBase "/dev/loop0" true) ∧
    (autoPartition envEspSetFails "/dev/sda" true).out = .crashed "set esp flag" := by
  constructor
  · exact (c4_bootflag_validation_warned_exec_crash envLoopBase "/dev/loop0" true rfl
      (by decide)).1 (by decide)
  · exact ((c4_bootflag_validation_warned_exec_crash envEspSetFails "/dev/sda" true rfl
      (by decide)).2 (by decide)).2 (by decide) |>.1

end Crystallize

namespace Crystallize

/-! ### C6 — DeviceParser roundtrip -/

theorem ofChars_data (s : String) : ofChars s.data = s := by
  cases s
  rfl

theorem data_ne_nil (s : String) (h : ¬ s = "") : s.data ≠ [] := by
  intro hd
  apply h
  have hs : s = ofChars s.data := (ofChars_data s).symm
  rw [hs, hd]
  rfl

/-- Go's `strings.Contains` survives appending on the right. -/
theorem listHasSub_append_left (pat l r : List Char) (h : listHasSub pat l = true) :
    listHasSub pat (l ++ r) = true := by
  induction l with
  | nil =>
      have hp : pat = [] := by simpa [listHasSub] using h
      subst hp
      cases r with
      | nil => rfl
      | cons c t => simp [listHasSub, List.isPrefixOf]
  | cons c t ih =>
      rw [List.cons_append]
      rw [listHasSub] at h
      rw [listHasSub]
      rw [Bool.or_eq_true] at h
      rcases h with h1 | h2
      · have hp : pat <+: c :: t := List.isPrefixOf_iff_prefix.mp h1
        have hq : pat <+: c :: (t ++ r) := by
          refine hp.trans ?_
          rw [← List.cons_append]
          exact List.prefix_append (c :: t) r
        rw [List.isPrefixOf_iff_prefix.mpr hq]
        rfl
      · rw [ih h2]
        simp

/-- A digit-free non-empty pattern does not occur in an all-digit list. -/
theorem listHasSub_digits_false (pat : List Char)
    (hpat : ∀ c ∈ pat, c.isDigit = false) (hpat0 : pat ≠ []) :
    ∀ r, (∀ c ∈ r, c.isDigit = true) → listHasSub pat r = false := by
  intro r
  induction r with
  | nil => intro _; simp [listHasSub, hpat0]
  | cons c t ih =>
      intro hr
      rw [listHasSub]
      have h1 : pat.isPrefixOf (c :: t) = false := by
        cases hq : pat.isPrefixOf (c :: t)
        · rfl
        · rcases pat with - | ⟨p0, ps⟩
          · exact absurd rfl hpat0
          · have hp : p0 :: ps <+: c :: t := List.isPrefixOf_iff_prefix.mp hq
            have hm : p0 ∈ c :: t := hp.subset (List.mem_cons_self p0 ps)
            have hd1 := hr p0 hm
            have hd2 := hpat p0 (List.mem_cons_self p0 ps)
            rw [hd1] at hd2
            exact absurd hd2 (by simp)
      rw [h1, ih fun d hd => hr d (List.mem_cons_of_mem c hd)]
      rfl

/-- Prefix testing of a digit-free pattern ignores an all-digit suffix. -/
theorem isPrefixOf_append_digits (pat r : List Char)
    (hpat : ∀ c ∈ pat, c.isDigit = false)
    (hr : ∀ c ∈ r, c.isDigit = true) :
    ∀ l, pat.isPrefixOf (l ++ r) = pat.isPrefixOf l := by
  intro l
  cases hp : pat.isPrefixOf l
  · cases hq : pat.isPrefixOf (l ++ r)
    · rfl
    · exfalso
      rcases List.isPrefixOf_iff_prefix.mp hq with ⟨s, hs⟩
      rcases List.append_eq_append_iff.mp hs with ⟨a, ha1, -⟩ | ⟨c', hc1, hc2⟩
      · have hl : pat <+: l := ⟨a, ha1.symm⟩
        rw [List.isPrefixOf_iff_prefix.mpr hl] at hp
        exact absurd hp (by simp)
      · rcases c' with - | ⟨c0, cs⟩
        · rw [List.append_nil] at hc1
          have hl : pat <+: l := by
            rw [hc1]
          rw [List.isPrefixOf_iff_prefix.mpr hl] at hp
          exact absurd hp (by simp)
        · have hm1 : c0 ∈ pat := by
            rw [hc1]
            exact List.mem_append_right l (List.mem_cons_self c0 cs)
          have hm2 : c0 ∈ r := by
            rw [hc2]
            exact List.mem_append_left _ (List.mem_cons_self c0 cs)
          have hd1 := hpat c0 hm1
          have hd2 := hr c0 hm2
          rw [hd1] at hd2
          exact absurd hd2 (by simp)
  · have hl := (List.isPrefixOf_iff_prefix.mp hp).trans (List.prefix_append l r)
    rw [List.isPrefixOf_iff_prefix.mpr hl]

/-- Occurrence of a digit-free pattern ignores an all-digit suffix. -/
theorem listHasSub_append_digits (pat r : List Char)
    (hpat : ∀ c ∈ pat, c.isDigit = false) (hpat0 : pat ≠ [])
    (hr : ∀ c ∈ r, c.isDigit = true) :
    ∀ l, listHasSub pat (l ++ r) = listHasSub pat l := by
  intro l
  induction l with
  | nil =>
      rw [List.nil_append, listHasSub_digits_false pat hpat hpat0 r hr]
      rcases pat with - | ⟨p0, ps⟩
      · exact absurd rfl hpat0
      · rfl
  | cons c t ih =>
      rw [List.cons_append, listHasSub, listHasSub, ← List.cons_append,
        isPrefixOf_append_digits pat r hpat hr (c :: t), ih]

theorem lastIndexOf_not_mem (ch : Char) :
    ∀ l, (∀ c ∈ l, ¬ c = ch) → lastIndexOfChar ch l = none := by
  intro l
  induction l with
  | nil => intro _; rfl
  | cons c t ih =>
      intro h
      rw [lastIndexOfChar, ih fun d hd => h d (List.mem_cons_of_mem c hd)]
      simp [h c (List.mem_cons_self c t)]

theorem lastIndexOf_append_p (ds : List Char) (hds : ∀ c ∈ ds, ¬ c = 'p') :
    ∀ base : List Char, lastIndexOfChar 'p' (base ++ 'p' :: ds) = some base.length := by
  intro base
  induction base with
  | nil =>
      rw [List.nil_append, lastIndexOfChar, lastIndexOf_not_mem 'p' ds hds]
      simp
  | cons c t ih =>
      rw [List.cons_append, lastIndexOfChar, ih]
      simp

theorem takeWhile_append_all (p : Char → Bool) :
    ∀ (l1 l2 : List Char), (∀ c ∈ l1, p c = true) →
      (l1 ++ l2).takeWhile p = l1 ++ l2.takeWhile p := by
  intro l1
  induction l1 with
  | nil => intro l2 _; rfl
  | cons c t ih =>
      intro l2 h
      rw [List.cons_append, List.takeWhile_cons, h c (List.mem_cons_self c t)]
      rw [ih l2 fun d hd => h d (List.mem_cons_of_mem c hd)]
      rfl

/-- Whether a device name ends in a decimal digit. -/
def endsInDigit (s : String) : Bool :=
  match s.data.reverse with
  | [] => false
  | c :: _ => c.isDigit

theorem takeWhile_digits_nil (base : String) (h : endsInDigit base = false) :
    base.data.reverse.takeWhile Char.isDigit = [] := by
  rw [endsInDigit] at h
  rcases hrev : base.data.reverse with - | ⟨c, t⟩
  · rfl
  · rw [hrev] at h
    simp only at h
    rw [List.takeWhile_cons, h]
    simp

theorem trailingDigitRun_append (base : String) (ds : List Char)
    (hds : ∀ c ∈ ds, c.isDigit = true) (h : endsInDigit base = false) :
    trailingDigitRun (base.data ++ ds) = ds.length := by
  rw [trailingDigitRun, List.reverse_append,
    takeWhile_append_all Char.isDigit ds.reverse base.data.reverse
      (fun c hc => hds c (List.mem_reverse.mp hc)),
    takeWhile_digits_nil base h, List.append_nil, List.length_reverse]

theorem digit_ne_p (c : Char) (h : c.isDigit = true) : ¬ c = 'p' := by
  intro he
  subst he
  exact absurd h (by decide)

/-- Counterexample to C6 as stated: for the string "/dev/sda01" (of the
form base + digits with base "/dev/sda" and digits "01"), Parse recovers
("/dev/sda", "01"), but GetPartitionNames with the recovered number 1
produces "/dev/sda1", not the original string: digit strings with leading
zeros do not round-trip. -/
theorem c6_roundtrip_counterexample :
    Parse "/dev/sda01" = ("/dev/sda", "01") ∧
    goAtoi "01" = some 1 ∧
    GetPartitionNames "/dev/sda" [1] = ["/dev/sda1"] ∧
    ¬ ("/dev/sda1" = "/dev/sda01") := by
  refine ⟨by decide, by decide, by decide, by decide⟩

/-- C6 amended: Parse followed by GetPartitionNames is the identity on
well-formed partition device names whose digit suffix is the canonical
decimal representation of its value (no leading zeros) and, in the
plain-suffix case, whose base is non-empty and newline-free (the dot of
the anchored Go regex does not match a newline, so a base containing one
makes the whole match fail): for base + "p" + digits with base containing
"nvme" or "mmcblk", and for base + digits with base free of those tokens,
not ending in a digit and containing no newline, Parse recovers
(base, digits) and GetPartitionNames reproduces the original; in
particular
Parse "/dev/sda1" = ("/dev/sda","1") and
Parse "/dev/nvme0n1p3" = ("/dev/nvme0n1","3"). -/
theorem c6_parse_get_partition_names_roundtrip :
    (∀ (base : String) (ds : List Char),
       isSpecialDevice base = true → ds ≠ [] → (∀ c ∈ ds, c.isDigit = true) →
       Parse (base ++ "p" ++ ofChars ds) = (base, ofChars ds) ∧
       (Nat.repr (digitsToNat ds) = ofChars ds →
         GetPartitionNames base [digitsToNat ds] = [base ++ "p" ++ ofChars ds])) ∧
    (∀ (base : String) (ds : List Char),
       ¬ base = "" → goContains base "nvme" = false → goContains base "mmcblk" = false →
       endsInDigit base = false → Char.ofNat 10 ∉ base.data →
       ds ≠ [] → (∀ c ∈ ds, c.isDigit = true) →
       Parse (base ++ ofChars ds) = (base, ofChars ds) ∧
       (Nat.repr (digitsToNat ds) = ofChars ds →
         GetPartitionNames base [digitsToNat ds] = [base ++ ofChars ds])) ∧
    Parse "/dev/sda1" = ("/dev/sda", "1") ∧
    Parse "/dev/nvme0n1p3" = ("/dev/nvme0n1", "3") := by
  refine ⟨?_, ?_, by decide, by decide⟩
  · intro base ds hb hds hdig
    have hdata : (base ++ "p" ++ ofChars ds).data = base.data ++ 'p' :: ds := by
      rw [data_append, data_append]
      simp [ofChars, List.append_assoc]
    have hspec : isSpecialDevice (base ++ "p" ++ ofChars ds) = true := by
      rw [isSpecialDevice] at hb ⊢
      rw [Bool.or_eq_true] at hb
      rcases hb with h | h
      · have : goContains (base ++ "p" ++ ofChars ds) "nvme" = true := by
          rw [goContains] at h ⊢
          rw [hdata]
          exact listHasSub_append_left _ base.data ('p' :: ds) h
        rw [this]
        rfl
      · have : goContains (base ++ "p" ++ ofChars ds) "mmcblk" = true := by
          rw [goContains] at h ⊢
          rw [hdata]
          exact listHasSub_append_left _ base.data ('p' :: ds) h
        rw [this]
        simp
    have hli : lastIndexOfChar 'p' (base.data ++ 'p' :: ds) = some base.data.length :=
      lastIndexOf_append_p ds (fun c hc => digit_ne_p c (hdig c hc)) base.data
    constructor
    · rw [Parse, hspec]
      simp only [if_true]
      rw [parseSpecialDevice, hdata, hli]
      simp only
      have htake : (base.data ++ 'p' :: ds).take base.data.length = base.data := by
        have := List.take_left base.data ('p' :: ds)
        exact this
      have hdrop : (base.data ++ 'p' :: ds).drop (base.data.length + 1) = ds := by
        have heq : base.data ++ 'p' :: ds = (base.data ++ ['p']) ++ ds := by
          simp [List.append_assoc]
        have hlen : base.data.length + 1 = (base.data ++ ['p']).length := by
          simp
        rw [heq, hlen]
        exact List.drop_left (base.data ++ ['p']) ds
      rw [htake, hdrop, ofChars_data]
    · intro hcanon
      rw [GetPartitionNames]
      simp only [List.map]
      rw [partName, getPartitionSeparator, hb]
      rw [hcanon]
      simp
  · intro base ds hb0 hnv hmm hed hnl hds hdig
    have hdata : (base ++ ofChars ds).data = base.data ++ ds := by
      rw [data_append]
      rfl
    have hnv2 : goContains (base ++ ofChars ds) "nvme" = false := by
      rw [goContains, hdata,
        listHasSub_append_digits "nvme".data ds (by decide) (by decide) hdig base.data]
      exact hnv
    have hmm2 : goContains (base ++ ofChars ds) "mmcblk" = false := by
      rw [goContains, hdata,
        listHasSub_append_digits "mmcblk".data ds (by decide) (by decide) hdig base.data]
      exact hmm
    have hspec : isSpecialDevice (base ++ ofChars ds) = false := by
      rw [isSpecialDevice, hnv2, hmm2]
      rfl
    have hnot0 : base.data ≠ [] := data_ne_nil base hb0
    have hds0 : ds.length ≠ 0 := by
      intro h
      exact hds (List.length_eq_zero.mp h)
    have hrun : trailingDigitRun ((base ++ ofChars ds).data) = ds.length := by
      rw [hdata]
      exact trailingDigitRun_append base ds hdig hed
    constructor
    · rw [Parse, hspec]
      simp only [Bool.false_eq_true, if_false]
      rw [parseStandardDevice]
      simp only [hrun]
      have hlen : (base ++ ofChars ds).data.length = base.data.length + ds.length := by
        rw [hdata, List.length_append]
      have hnl2 : Char.ofNat 10 ∉ (base ++ ofChars ds).data := by
        rw [hdata]
        intro hm
        rcases List.mem_append.mp hm with hm | hm
        · exact hnl hm
        · exact absurd (hdig _ hm) (by decide)
      have hcond : ¬ (ds.length = 0 || decide ((base ++ ofChars ds).data.length < 2) ||
          decide (Char.ofNat 10 ∈ (base ++ ofChars ds).data)) = true := by
        have hbl : 0 < base.data.length := List.length_pos.mpr hnot0
        have hdl : 0 < ds.length := Nat.pos_of_ne_zero hds0
        simp only [Bool.or_eq_true, decide_eq_true_eq]
        push_neg
        refine ⟨⟨hds0, ?_⟩, hnl2⟩
        rw [hlen]
        omega
      rw [if_neg hcond]
      have hmax : max ((base ++ ofChars ds).data.length - ds.length) 1 = base.data.length := by
        rw [hlen, Nat.add_sub_cancel]
        exact Nat.max_eq_left (List.length_pos.mpr hnot0)
      rw [hmax, hdata, List.take_left, List.drop_left, ofChars_data]
    · intro hcanon
      have hspecb : isSpecialDevice base = false := by
        rw [isSpecialDevice, hnv, hmm]
        rfl
      rw [GetPartitionNames]
      simp only [List.map]
      rw [partName, getPartitionSeparator, hspecb]
      simp only [Bool.false_eq_true, if_false]
      rw [hcanon]
      rw [String.append_empty]

/-- Witness for the amended C6 at /dev/nvme0n1p3 and /dev/sda1. -/
theorem c6_parse_get_partition_names_roundtrip_witness :
    (Parse ("/dev/nvme0n1" ++ "p" ++ ofChars ['3']) = ("/dev/nvme0n1", ofChars ['3']) ∧
      GetPartitionNames "/dev/nvme0n1" [digitsToNat ['3']] =
        ["/dev/nvme0n1" ++ "p" ++ ofChars ['3']]) ∧
    (Parse ("/dev/sda" ++ ofChars ['1']) = ("/dev/sda", ofChars ['1']) ∧
      GetPartitionNames "/dev/sda" [digitsToNat ['1']] = ["/dev/sda" ++ ofChars ['1']]) := by
  have h1 := c6_parse_get_partition_names_roundtrip.1 "/dev/nvme0n1" ['3'] (by decide)
    (by decide) (by decide)
  have h2 := c6_parse_get_partition_names_roundtrip.2.1 "/dev/sda" ['1'] (by decide)
    (by decide) (by decide) (by decide) (by decide) (by decide) (by decide)
  exact ⟨⟨h1.1, h1.2 (by decide)⟩, ⟨h2.1, h2.2 (by decide)⟩⟩

end Crystallize

namespace Crystallize

/-! ### C10 — Unknown partition mode defaults to auto with a warning -/

/-- C10: for every mode string whose trimmed lower-cased form is neither
"auto" nor "manual", ParsePartitionMode returns the auto mode together
with a non-nil error; the Installer's partition stage only logs that
error and proceeds: setupPartitions runs the automatic partitioning of
the configured (normalized) device, the parse error never aborts the
stage. -/
theorem c10_unknown_mode_defaults_to_auto :
    (∀ s : String,
       ¬ goToLower (goTrimSpace s) = "auto" → ¬ goToLower (goTrimSpace s) = "manual" →
       ParsePartitionMode s =
         ("auto", some ("unknown partition mode: " ++ s ++ ", defaulting to auto"))) ∧
    (∀ (env : Env) (sorter : List PartitionType → List PartitionType)
       (pc : PartitionConfig) (ps : List PartitionType),
       ¬ goToLower (goTrimSpace pc.Mode) = "auto" →
       ¬ goToLower (goTrimSpace pc.Mode) = "manual" →
       parsePartitionSpecs 0 pc.Partitions = .ok ps →
       setupPartitions env sorter pc =
         (cleanupAll.andThen fun _ =>
            autoPartition env (normalizeDevicePath pc.Device) pc.EFI).andThenW
           "partition disk: " fun _ => Step.pure none) := by
  constructor
  · intro s h1 h2
    rw [ParsePartitionMode]
    simp [h1, h2]
  · intro env sorter pc ps h1 h2 hps
    have hm : (ParsePartitionMode pc.Mode).1 = "auto" := by
      rw [ParsePartitionMode]
      simp [h1, h2]
    rw [setupPartitions]
    simp only [hps]
    rw [hm]
    rw [PartitionGo]
    simp

/-- Witness for C10 on the mode string "Whatever". -/
theorem c10_unknown_mode_defaults_to_auto_witness :
    ParsePartitionMode "Whatever" =
      ("auto", some ("unknown partition mode: " ++ "Whatever" ++ ", defaulting to auto")) ∧
    setupPartitions envAllOk id ⟨"sda", "Whatever", true, []⟩ =
      (cleanupAll.andThen fun _ =>
         autoPartition envAllOk (normalizeDevicePath "sda") true).andThenW
        "partition disk: " fun _ => Step.pure none :=
  ⟨c10_unknown_mode_defaults_to_auto.1 "Whatever" (by decide) (by decide),
   c10_unknown_mode_defaults_to_auto.2 envAllOk id ⟨"sda", "Whatever", true, []⟩ []
     (by decide) (by decide) rfl⟩

end Crystallize

namespace Crystallize

/-! ### C8 — Manual-mode processing order

sortByMountpoint calls Go's sort.Slice with the comparison
len(mountpoint i) < len(mountpoint j).  sort.Slice's documented contract
promises a permutation ordered by the comparison and explicitly does NOT
guarantee stability (sort.SliceStable is the stable variant and is not
used).  The sorter argument of manualPartition ranges over the choices
the library may make; GoSortSliceOK is that contract. -/

instance : DecidableRel byMountLen := fun a b => Nat.decLe a.Mountpoint.length b.Mountpoint.length

instance : IsTotal PartitionType byMountLen :=
  ⟨fun a b => Nat.le_total a.Mountpoint.length b.Mountpoint.length⟩

instance : IsTrans PartitionType byMountLen :=
  ⟨fun _ _ _ h1 h2 => Nat.le_trans h1 h2⟩

/-- A contract-satisfying sorter that reverses the input before a
sorting pass, thereby flipping the relative order of equal-length keys. -/
def tieFlippingSorter (l : List PartitionType) : List PartitionType :=
  List.insertionSort byMountLen l.reverse

theorem insertionSort_byMountLen_ok (l : List PartitionType) :
    ((List.insertionSort byMountLen l).Perm l) ∧
      (List.insertionSort byMountLen l).Sorted byMountLen :=
  ⟨List.perm_insertionSort byMountLen l, List.sorted_insertionSort byMountLen l⟩

theorem tieFlippingSorter_ok : GoSortSliceOK tieFlippingSorter := by
  intro l
  rcases insertionSort_byMountLen_ok l.reverse with ⟨hp, hs⟩
  exact ⟨hp.trans (List.reverse_perm l), hs⟩

/-- Plain insertion sort by mount-point length also satisfies the
contract. -/
def plainSorter (l : List PartitionType) : List PartitionType :=
  List.insertionSort byMountLen l

theorem plainSorter_ok : GoSortSliceOK plainSorter := fun l => insertionSort_byMountLen_ok l

/-- Counterexample to C8's stability clause: sort.Slice's contract (a
permutation ordered by the less function, stability not guaranteed) does
not force equal-length mount points to keep their original relative
order — a contract-satisfying sorter flips the two equal-length specs
/mnt/a and /mnt/b. -/
theorem c8_stable_sort_counterexample :
    ¬ (∀ sorter : List PartitionType → List PartitionType, GoSortSliceOK sorter →
        ∀ a b : PartitionType, a.Mountpoint.length = b.Mountpoint.length →
          sorter [a, b] = [a, b]) := by
  intro h
  have := h tieFlippingSorter tieFlippingSorter_ok
    ⟨"/mnt/a", "/dev/sda1", "ext4"⟩ ⟨"/mnt/b", "/dev/sda2", "ext4"⟩ (by decide)
  have hcomp : tieFlippingSorter
      [⟨"/mnt/a", "/dev/sda1", "ext4"⟩, ⟨"/mnt/b", "/dev/sda2", "ext4"⟩] =
      [⟨"/mnt/b", "/dev/sda2", "ext4"⟩, ⟨"/mnt/a", "/dev/sda1", "ext4"⟩] := by decide
  rw [hcomp] at this
  exact absurd this (by decide)

/-- Specs of the spec's concrete sorting example. -/
def c8ExampleSpecs : List PartitionType :=
  [⟨"/mnt/boot/efi", "/dev/sda3", "fat32"⟩,
   ⟨"/mnt", "/dev/sda1", "ext4"⟩,
   ⟨"/mnt/boot", "/dev/sda2", "ext4"⟩]

/-- C8 amended: in manual mode, after dropping specs with an empty block
device, the remaining specs are processed in ascending order of
mountpoint string length — the processed list is a permutation of the
valid specs ordered by mount-point length, but ties are NOT guaranteed
to keep their original relative order (sort.Slice is not stable); for the
spec's example the lengths are distinct, so every contract-satisfying
sorter processes /mnt, then /mnt/boot, then /mnt/boot/efi. -/
theorem c8_manual_sort_ascending_by_length :
    (∀ (env : Env) (sorter : List PartitionType → List PartitionType)
       (ps : List PartitionType) (efi : Bool),
       manualPartition env sorter ps efi =
         processSpecs env efi (sorter (filterValidPartitions ps))) ∧
    (∀ sorter : List PartitionType → List PartitionType, GoSortSliceOK sorter →
       ∀ ps : List PartitionType,
         ((sorter (filterValidPartitions ps)).Perm (filterValidPartitions ps) ∧
          (sorter (filterValidPartitions ps)).Sorted byMountLen)) ∧
    (∀ sorter : List PartitionType → List PartitionType, GoSortSliceOK sorter →
       (sorter (filterValidPartitions c8ExampleSpecs)).map PartitionType.Mountpoint =
         ["/mnt", "/mnt/boot", "/mnt/boot/efi"]) := by
  refine ⟨fun _ _ _ _ => rfl, fun sorter hs ps => hs (filterValidPartitions ps), ?_⟩
  intro sorter hs
  rcases hs (filterValidPartitions c8ExampleSpecs) with ⟨hperm, hsort⟩
  generalize hout : sorter (filterValidPartitions c8ExampleSpecs) = out at hperm hsort
  have hfv : filterValidPartitions c8ExampleSpecs =
      [⟨"/mnt/boot/efi", "/dev/sda3", "fat32"⟩, ⟨"/mnt", "/dev/sda1", "ext4"⟩,
       ⟨"/mnt/boot", "/dev/sda2", "ext4"⟩] := by decide
  rw [hfv] at hperm
  have hnd : out.Nodup := hperm.nodup_iff.mpr (by decide)
  have hlen := hperm.length_eq
  rcases out with - | ⟨a, out⟩
  · simp at hlen
  rcases out with - | ⟨b, out⟩
  · simp at hlen
  rcases out with - | ⟨c, out⟩
  · simp at hlen
  rcases out with - | ⟨d, out⟩
  case cons.cons.cons.cons =>
    simp at hlen
  have hab : byMountLen a b := (List.sorted_cons.mp hsort).1 b (by simp)
  have hbc : byMountLen b c :=
    (List.sorted_cons.mp ((List.sorted_cons.mp hsort).2)).1 c (by simp)
  have ha : a ∈ [(⟨"/mnt/boot/efi", "/dev/sda3", "fat32"⟩ : PartitionType),
      ⟨"/mnt", "/dev/sda1", "ext4"⟩, ⟨"/mnt/boot", "/dev/sda2", "ext4"⟩] :=
    hperm.subset (by simp)
  have hb : b ∈ [(⟨"/mnt/boot/efi", "/dev/sda3", "fat32"⟩ : PartitionType),
      ⟨"/mnt", "/dev/sda1", "ext4"⟩, ⟨"/mnt/boot", "/dev/sda2", "ext4"⟩] :=
    hperm.subset (by simp)
  have hc : c ∈ [(⟨"/mnt/boot/efi", "/dev/sda3", "fat32"⟩ : PartitionType),
      ⟨"/mnt", "/dev/sda1", "ext4"⟩, ⟨"/mnt/boot", "/dev/sda2", "ext4"⟩] :=
    hperm.subset (by simp)
  simp only [List.mem_cons, List.not_mem_nil, or_false] at ha hb hc
  rcases ha with rfl | rfl | rfl <;> rcases hb with rfl | rfl | rfl <;>
    rcases hc with rfl | rfl | rfl <;>
    first
      | decide
      | exact absurd hab (by decide)
      | exact absurd hbc (by decide)
      | exact absurd hnd (by decide)

/-- Witness for the amended C8 with the merge-sort sorter. -/
theorem c8_manual_sort_ascending_by_length_witness :
    (plainSorter (filterValidPartitions c8ExampleSpecs)).map PartitionType.Mountpoint =
      ["/mnt", "/mnt/boot", "/mnt/boot/efi"] :=
  c8_manual_sort_ascending_by_length.2.2 plainSorter plainSorter_ok

end Crystallize
